import Mathlib

set_option autoImplicit false

/-!
Verification development for the politeia trust-log backend sources.

Shallow embedding conventions: byte slices become `List Nat`, Go maps become
lookup functions or association lists, pointer slices become `List (Option _)`,
fallible Go functions return `Except`, and external cryptographic primitives
(hash functions, signature verification) are abstracted as explicit function
parameters so that theorems quantify over them.
-/

namespace Politeia

/-! ## Trillian test client (politeiad/backend/tlogbe/comments_test.go) -/

/-- trillian.LogLeaf: the fields used by the test client. -/
structure LogLeaf where
  leafValue : List Nat
  extraData : List Nat
  merkleLeafHash : List Nat
  leafIndex : Int
deriving Repr, DecidableEq

/-- trillian.Tree: only identity matters for the embedded operations. -/
structure Tree where
  treeId : Int
deriving Repr, DecidableEq

/-- TestTrillianClient.treesAll: the source allocates a slice with
`make([]*trillian.Tree, len(t.trees))` (length n, every entry the nil
pointer) and then appends each stored tree, so the result has the n nil
entries first and the stored trees after them. A nil tree pointer is
modelled as `none`. The Go map iteration order is arbitrary, therefore the
embedding takes the stored trees as a list in an arbitrary order. -/
def treesAll (stored : List Tree) : List (Option Tree) :=
  List.replicate stored.length none ++ stored.map some

/-- TestTrillianClient.leavesAppend for a single tree. The source computes
`index` once before the loop (last stored leaf index + 1, or 0 for an empty
tree) and assigns that same `index` to every leaf of the batch; `index` is
never incremented inside the loop. Each leaf also gets its merkle leaf hash
(the hash function is external, passed as a parameter). Returns the new
stored leaf list and the processed batch (the queued leaves returned to the
caller, whose status and proof fields are nil in the source). -/
def leavesAppend (hash : List Nat → List Nat) (stored : List LogLeaf)
    (leaves : List LogLeaf) : List LogLeaf × List LogLeaf :=
  let index : Int :=
    match stored.getLast? with
    | some l => l.leafIndex + 1
    | none => 0
  let processed := leaves.map
    (fun l => { l with leafIndex := index, merkleLeafHash := hash l.leafValue })
  (stored ++ processed, processed)

/-- The leaf-collecting loop inside TestTrillianClient.leavesByRange: walks
the stored leaves with a counter `c`, keeping a leaf when its index is at
least `startIndex` and fewer than `count` leaves have been kept. -/
def leavesByRangeLoop (startIndex count : Int) :
    List LogLeaf → Int → List LogLeaf
  | [], _ => []
  | leaf :: rest, c =>
    if leaf.leafIndex ≥ startIndex ∧ c < count then
      leaf :: leavesByRangeLoop startIndex count rest (c + 1)
    else
      leavesByRangeLoop startIndex count rest c

/-- TestTrillianClient.leavesByRange: errors when the tree has no leaf data
entry; otherwise it runs the collecting loop but then executes
`return nil, nil`, discarding the collected slice — the embedding keeps the
discarded computation in a binding and returns the empty list exactly as
the source does. -/
def leavesByRange (leavesOf : Int → Option (List LogLeaf))
    (treeID startIndex count : Int) : Except String (List LogLeaf) :=
  match leavesOf treeID with
  | none => Except.error "Tree ID does not contain any leaf data"
  | some stored =>
    let _collected := leavesByRangeLoop startIndex count stored 0
    Except.ok []

/-- Sample leaf used in concrete evaluations. -/
def sampleLeafA : LogLeaf :=
  { leafValue := [1], extraData := [], merkleLeafHash := [], leafIndex := 0 }

/-- Second sample leaf used in concrete evaluations. -/
def sampleLeafB : LogLeaf :=
  { leafValue := [2], extraData := [], merkleLeafHash := [], leafIndex := 0 }

/-- C1: the claim says the i-th leaf of a batch appended to a tree holding n
leaves receives index n+i (strictly increasing by 1 within the batch). The
source assigns the same index to every leaf of a batch: appending a batch of
two leaves to an empty tree yields indices [0, 0], not [0, 1], and a further
single-leaf append then gets index 1 (continuing from the duplicated 0). -/
theorem leavesAppend_assigns_same_index_to_whole_batch :
    ((leavesAppend (fun v => v) [] [sampleLeafA, sampleLeafB]).2.map
        LogLeaf.leafIndex) = [0, 0] ∧
    ((leavesAppend (fun v => v) [] [sampleLeafA, sampleLeafB]).2.map
        LogLeaf.leafIndex) ≠ [0, 1] ∧
    ((leavesAppend (fun v => v)
        (leavesAppend (fun v => v) [] [sampleLeafA, sampleLeafB]).1
        [sampleLeafA]).2.map LogLeaf.leafIndex) = [1] := by
  refine ⟨rfl, ?_, rfl⟩
  decide

/-- C4: the claim says a leavesByRange request covering at least one existing
leaf returns a non-empty list of exactly the leaves in [start, start+count).
On a tree holding one leaf of index 0, the request (start 0, count 1) returns
the empty list, even though the internal collecting loop had gathered exactly
the requested leaf — the source discards it and returns nil. -/
theorem leavesByRange_returns_empty_despite_collected_leaf :
    leavesByRange (fun id => if id = 1 then some [sampleLeafA] else none)
        1 0 1 = Except.ok [] ∧
    leavesByRangeLoop 0 1 [sampleLeafA] 0 = [sampleLeafA] ∧
    leavesByRange (fun id => if id = 1 then some [sampleLeafA] else none)
        1 0 1 ≠ Except.ok [sampleLeafA] := by
  refine ⟨rfl, rfl, fun h => ?_⟩
  exact absurd (Except.ok.inj h) (by decide)

/-- Taking the length of the replicated block out of an append recovers the
replicated block. -/
theorem replicate_append_take {α : Type} (x : α) (l : List α) :
    ∀ n, (List.replicate n x ++ l).take n = List.replicate n x := by
  intro n
  induction n with
  | zero => simp
  | succ m ih => simp [List.replicate_succ, ih]

/-- Dropping the length of the replicated block out of an append recovers the
appended tail. -/
theorem replicate_append_drop {α : Type} (x : α) (l : List α) :
    ∀ n, (List.replicate n x ++ l).drop n = l := by
  intro n
  induction n with
  | zero => simp
  | succ m ih => simp [List.replicate_succ, ih]

/-- C10: treesAll on a client holding n trees returns a slice of length 2n
whose first n entries are nil tree pointers, with the created trees occupying
only the remaining entries; so for n > 0 the very first entry a caller
iterating the slice encounters is nil, before any real tree. -/
theorem treesAll_pads_with_nil_entries (ts : List Tree) :
    (treesAll ts).length = 2 * ts.length ∧
    (treesAll ts).take ts.length = List.replicate ts.length none ∧
    (treesAll ts).drop ts.length = ts.map some ∧
    (0 < ts.length → (treesAll ts).get? 0 = some none) := by
  refine ⟨?_, ?_, ?_, ?_⟩
  · simp [treesAll, two_mul]
  · exact replicate_append_take _ _ _
  · exact replicate_append_drop _ _ _
  · intro hpos
    cases ts with
    | nil => exact absurd hpos (by simp)
    | cons t rest => rfl

/-- Witness for the hypothesis-bearing conjunct of `treesAll_pads_with_nil_entries`
at a concrete one-tree client. -/
theorem treesAll_pads_with_nil_entries_witness :
    (treesAll [{ treeId := 7 }]).get? 0 = some none :=
  (treesAll_pads_with_nil_entries [{ treeId := 7 }]).2.2.2 (by decide)

/-! ## Blob store (src/unnamed/part_000, politeiatlog fileSystem) -/

/-- Outcome of one ReadFile call on the backing filesystem: the file is
present with content b, the file does not exist, or an I/O failure. -/
inductive ReadResult where
  | found (b : List Nat)
  | notExist
  | ioError (msg : String)

/-- Store errors: store.ErrNotFound or any other propagated error. -/
inductive StoreErr where
  | errNotFound
  | other (msg : String)
deriving Repr, DecidableEq

/-- fileSystem.Get: reads each key via ReadFile. When the read reports that
the file does not exist the source returns store.ErrNotFound immediately;
any other read error is returned as-is. Present blobs are collected into the
result map (modelled as an association list in key order). The second error
branch of the source — the one whose comment says a missing file is ok and
that would skip the key — is unreachable, because the first branch has
already returned on every non-nil error; the embedding therefore never
reaches it. -/
def fileSystemGet (read : String → ReadResult) :
    List String → Except StoreErr (List (String × List Nat))
  | [] => Except.ok []
  | key :: rest =>
    match read key with
    | ReadResult.notExist => Except.error StoreErr.errNotFound
    | ReadResult.ioError e => Except.error (StoreErr.other e)
    | ReadResult.found b =>
      (fileSystemGet read rest).map (fun blobs => (key, b) :: blobs)

/-- C3: Get on a missing key returns store.ErrNotFound instead of omitting
the key; an I/O failure propagates as its own error; and a present key is
returned in the map. The claim expects the first input to produce an empty
map with no error. -/
theorem fileSystemGet_errors_on_missing_key :
    fileSystemGet (fun _ => ReadResult.notExist) ["somekey"]
        = Except.error StoreErr.errNotFound ∧
    fileSystemGet (fun _ => ReadResult.notExist) ["somekey"]
        ≠ Except.ok [] ∧
    fileSystemGet (fun _ => ReadResult.ioError "disk failure") ["somekey"]
        = Except.error (StoreErr.other "disk failure") ∧
    fileSystemGet (fun k => if k = "somekey" then ReadResult.found [1, 2]
        else ReadResult.notExist) ["somekey"]
        = Except.ok [("somekey", [1, 2])] := by
  refine ⟨rfl, fun h => ?_, rfl, by simp [fileSystemGet, Except.map]⟩
  cases h

/-- Modelled from the spec: the real Blob Store Put implementation
(politeiad/backend/tlogbe/store/filesystem) is not among these sources; the
fileSystem.Put of part_000 is an explicit stub kept only to satisfy the Blob
interface. Per the spec, Put computes a content-address key for each blob (a
deterministic hash of the payload bytes, passed here as the parameter hash),
persists each blob under its key, and returns one key per submitted blob. -/
def blobStorePut (hash : List Nat → String)
    (stored : List (String × List Nat)) (blobs : List (List Nat)) :
    List String × List (String × List Nat) :=
  (blobs.map hash, stored ++ blobs.map (fun b => (hash b, b)))

/-- C5: Put returns one content-address key per submitted blob, persists every
blob under its key, identical payload bytes in a batch receive identical keys,
and submitting the same payloads again (against the updated store) yields the
same keys both times. -/
theorem blobStorePut_content_addressed (hash : List Nat → String)
    (stored : List (String × List Nat)) (blobs : List (List Nat)) :
    (blobStorePut hash stored blobs).1.length = blobs.length ∧
    (∀ b, b ∈ blobs → (hash b, b) ∈ (blobStorePut hash stored blobs).2) ∧
    (∀ i j : Nat, blobs.get? i = blobs.get? j →
      (blobStorePut hash stored blobs).1.get? i
        = (blobStorePut hash stored blobs).1.get? j) ∧
    (blobStorePut hash (blobStorePut hash stored blobs).2 blobs).1
      = (blobStorePut hash stored blobs).1 := by
  refine ⟨by simp [blobStorePut], ?_, ?_, rfl⟩
  · intro b hb
    simp only [blobStorePut, List.mem_append]
    exact Or.inr (List.mem_map_of_mem _ hb)
  · intro i j hij
    simp only [blobStorePut, List.get?_map, hij]

/-- Witness for the hypothesis-bearing conjuncts of
`blobStorePut_content_addressed` at a concrete store and duplicate payloads. -/
theorem blobStorePut_content_addressed_witness :
    (("k", [9]) ∈ (blobStorePut (fun _ => "k") [] [[9], [9]]).2) ∧
    (blobStorePut (fun _ => "k") [] [[9], [9]]).1.get? 0
      = (blobStorePut (fun _ => "k") [] [[9], [9]]).1.get? 1 :=
  ⟨(blobStorePut_content_addressed (fun _ => "k") [] [[9], [9]]).2.1
      [9] (by decide),
    (blobStorePut_content_addressed (fun _ => "k") [] [[9], [9]]).2.2.1
      0 1 (by decide)⟩

/-! ## Encryption key (politeiad/backend/tlogbe/encryptionkey.go) -/

/-- EncryptionKey: holds a pointer to a 32-byte key buffer; a nil pointer is
modelled as none (the byte width is immaterial to the embedded behavior). -/
structure EncryptionKey where
  key : Option (List Nat)
deriving Repr, DecidableEq

/-- EncryptionKey.Encrypt: the source passes the key pointer straight to
sbox.Encrypt. sbox is an external library that dereferences the key pointer;
after zero has nilled the pointer, the Go call aborts with a nil-pointer
panic, modelled as an error result. With a present key it seals the blob via
the external primitive, passed as the parameter sealFn. -/
def EncryptionKey.Encrypt (sealFn : Nat → List Nat → List Nat → List Nat)
    (e : EncryptionKey) (version : Nat) (blob : List Nat) :
    Except String (List Nat) :=
  match e.key with
  | none => Except.error "panic: nil key dereference"
  | some k => Except.ok (sealFn version k blob)

/-- EncryptionKey.Decrypt: same shape as Encrypt; the external primitive
unsealFn may itself fail on a malformed packed blob. -/
def EncryptionKey.Decrypt (unsealFn : List Nat → List Nat → Option (List Nat × Nat))
    (e : EncryptionKey) (blob : List Nat) : Except String (List Nat × Nat) :=
  match e.key with
  | none => Except.error "panic: nil key dereference"
  | some k =>
    match unsealFn k blob with
    | none => Except.error "decryption failed"
    | some r => Except.ok r

/-- EncryptionKey.zero: util.Zero overwrites every byte of the key buffer
with 0, then the key pointer is set to nil. The embedding returns the new
struct state together with the final content of the old buffer. Calling zero
when the pointer is already nil would itself panic on the slicing of the nil
array pointer, modelled as none. -/
def EncryptionKey.zero (e : EncryptionKey) :
    Option (EncryptionKey × List Nat) :=
  match e.key with
  | none => none
  | some k => some (⟨none⟩, k.map (fun _ => 0))

/-- C6: zeroing a key that is present leaves a struct whose key reference is
nil, with the old key material overwritten with zero bytes, and every
subsequent Encrypt or Decrypt on the zeroed struct fails loudly with the
modelled nil-dereference abort instead of operating on a zeroed key. -/
theorem encryptionKey_zero_disables_key
    (sealFn : Nat → List Nat → List Nat → List Nat)
    (unsealFn : List Nat → List Nat → Option (List Nat × Nat))
    (e : EncryptionKey) (k : List Nat) (h : e.key = some k) :
    ∃ e2 zeroed, e.zero = some (e2, zeroed) ∧
      e2.key = none ∧
      zeroed = List.replicate k.length 0 ∧
      (∀ v blob, e2.Encrypt sealFn v blob
        = Except.error "panic: nil key dereference") ∧
      (∀ blob, e2.Decrypt unsealFn blob
        = Except.error "panic: nil key dereference") := by
  refine ⟨⟨none⟩, k.map (fun _ => 0), ?_, rfl, ?_, fun _ _ => rfl, fun _ => rfl⟩
  · simp [EncryptionKey.zero, h]
  · simp [List.eq_replicate_iff]

/-- Witness: zeroing a concrete three-byte key disables it. -/
theorem encryptionKey_zero_disables_key_witness :
    ∃ e2 zeroed,
      EncryptionKey.zero ⟨some [4, 5, 6]⟩ = some (e2, zeroed) ∧
      e2.key = none ∧
      zeroed = List.replicate ([4, 5, 6] : List Nat).length 0 ∧
      (∀ v blob, e2.Encrypt (fun _ k b => k ++ b) v blob
        = Except.error "panic: nil key dereference") ∧
      (∀ blob, e2.Decrypt (fun _ _ => none) blob
        = Except.error "panic: nil key dereference") :=
  encryptionKey_zero_disables_key (fun _ k b => k ++ b) (fun _ _ => none)
    ⟨some [4, 5, 6]⟩ [4, 5, 6] rfl

/-! ## politeiawww plugin inventory (src/unnamed/part_007) -/

/-- pd.PluginSetting as received from politeiad. -/
structure PDPluginSetting where
  key : String
  value : String
deriving Repr, DecidableEq

/-- pd.Plugin as received from politeiad. -/
structure PDPlugin where
  id : String
  version : String
  settings : List PDPluginSetting
deriving Repr, DecidableEq

/-- politeiawww pluginSetting. -/
structure PluginSetting where
  key : String
  value : String
deriving Repr, DecidableEq

/-- politeiawww plugin. -/
structure Plugin where
  id : String
  version : String
  settings : List PluginSetting
deriving Repr, DecidableEq

/-- convertPluginSettingFromPD. -/
def convertPluginSettingFromPD (ps : PDPluginSetting) : PluginSetting :=
  { key := ps.key, value := ps.value }

/-- convertPluginFromPD: the source builds the settings slice by appending
each converted setting to an empty slice of the right capacity, which is the
map over the settings list. -/
def convertPluginFromPD (p : PDPlugin) : Plugin :=
  { id := p.id
    version := p.version
    settings := p.settings.map convertPluginSettingFromPD }

/-- maxRetries of getPluginInventory. -/
def maxRetries : Nat := 1000

/-- sleepInterval of getPluginInventory, in seconds. -/
def sleepInterval : Nat := 5

/-- The retry loop of getPluginInventory. The remaining fuel is
maxRetries - retries: the source returns the max-retries error when the
retry counter reaches maxRetries, sleeps sleepInterval after every failed
attempt, and on the first successful attempt converts the fetched inventory
and stops. The result carries the list of sleeps performed so the pacing of
the retries is observable. The attempt function abstracts the remote
pluginInventory call, indexed by the retry counter. -/
def inventoryLoop (attempt : Nat → Except String (List PDPlugin)) :
    Nat → Nat → Except String (List Plugin) × List Nat
  | _, 0 => (Except.error "max retries exceeded", [])
  | retries, remaining + 1 =>
    match attempt retries with
    | Except.error _ =>
      let r := inventoryLoop attempt (retries + 1) remaining
      (r.1, sleepInterval :: r.2)
    | Except.ok inv => (Except.ok (inv.map convertPluginFromPD), [])

/-- getPluginInventory: runs the retry loop from a zero retry counter with
maxRetries attempts available. -/
def getPluginInventory (attempt : Nat → Except String (List PDPlugin)) :
    Except String (List Plugin) × List Nat :=
  inventoryLoop attempt 0 maxRetries

/-- Every sleep performed by the retry loop is the fixed interval, and there
are at most as many sleeps as attempts. -/
theorem inventoryLoop_sleeps (attempt : Nat → Except String (List PDPlugin)) :
    ∀ remaining retries,
      (∀ d ∈ (inventoryLoop attempt retries remaining).2, d = sleepInterval) ∧
      (inventoryLoop attempt retries remaining).2.length ≤ remaining := by
  intro remaining
  induction remaining with
  | zero => intro retries; simp [inventoryLoop]
  | succ m ih =>
    intro retries
    cases hatt : attempt retries with
    | error e =>
      refine ⟨?_, ?_⟩
      · intro d hd
        simp only [inventoryLoop, hatt, List.mem_cons] at hd
        rcases hd with h5 | hmem
        · exact h5
        · exact (ih (retries + 1)).1 d hmem
      · simp only [inventoryLoop, hatt, List.length_cons]
        exact Nat.succ_le_succ (ih (retries + 1)).2
    | ok inv => simp [inventoryLoop, hatt]

/-- When every available attempt fails, the loop exhausts its retries, sleeps
once per failed attempt, and reports the max-retries error. -/
theorem inventoryLoop_all_fail (attempt : Nat → Except String (List PDPlugin)) :
    ∀ remaining retries,
      (∀ i, retries ≤ i → i < retries + remaining →
        ∃ e, attempt i = Except.error e) →
      inventoryLoop attempt retries remaining
        = (Except.error "max retries exceeded",
           List.replicate remaining sleepInterval) := by
  intro remaining
  induction remaining with
  | zero => intro retries _; simp [inventoryLoop]
  | succ m ih =>
    intro retries h
    obtain ⟨e, he⟩ := h retries (Nat.le_refl _) (by omega)
    have hrec := ih (retries + 1)
      (fun i h1 h2 => h i (by omega) (by omega))
    simp [inventoryLoop, he, hrec, List.replicate_succ]

/-- When the attempt k past the current counter is the first to succeed and
fuel remains for it, the loop sleeps exactly k times and returns the
converted inventory of that attempt. -/
theorem inventoryLoop_first_success
    (attempt : Nat → Except String (List PDPlugin)) :
    ∀ k remaining retries (ps : List PDPlugin), k < remaining →
      attempt (retries + k) = Except.ok ps →
      (∀ i, i < k → ∃ e, attempt (retries + i) = Except.error e) →
      inventoryLoop attempt retries remaining
        = (Except.ok (ps.map convertPluginFromPD),
           List.replicate k sleepInterval) := by
  intro k
  induction k with
  | zero =>
    intro remaining retries ps hk hok _
    cases remaining with
    | zero => omega
    | succ m =>
      have hok0 : attempt retries = Except.ok ps := by simpa using hok
      simp [inventoryLoop, hok0]
  | succ n ih =>
    intro remaining retries ps hk hok hfail
    cases remaining with
    | zero => omega
    | succ m =>
      obtain ⟨e, he⟩ := hfail 0 (Nat.succ_pos _)
      have he0 : attempt retries = Except.error e := by simpa using he
      have hok1 : attempt (retries + 1 + n) = Except.ok ps := by
        have : retries + 1 + n = retries + (n + 1) := by omega
        rw [this]; exact hok
      have hfail1 : ∀ i, i < n → ∃ e2, attempt (retries + 1 + i)
          = Except.error e2 := by
        intro i hi
        have : retries + 1 + i = retries + (i + 1) := by omega
        rw [this]
        exact hfail (i + 1) (by omega)
      have hrec := ih m (retries + 1) ps (by omega) hok1 hfail1
      simp [inventoryLoop, he0, hrec, List.replicate_succ]

/-- An attempt function that fails on the first two tries (a connection
failure) and succeeds from the third on. -/
def attemptDemo : Nat → Except String (List PDPlugin) :=
  fun n =>
    if n < 2 then Except.error "connection refused"
    else Except.ok [{ id := "comments", version := "1", settings := [] }]

/-- C9 counterexample: the claim says failed fetches are retried with
exponential backoff — so with at least two retries the waits between
successive attempts must grow. Two failed attempts followed by a success
produce the sleep schedule [5, 5]: a fixed interval, not an increasing one. -/
theorem getPluginInventory_not_exponential_backoff :
    (getPluginInventory attemptDemo).2 = [sleepInterval, sleepInterval] ∧
    ¬ List.Chain' (fun a b => a < b) (getPluginInventory attemptDemo).2 := by
  refine ⟨rfl, fun h => ?_⟩
  have h5 : List.Chain' (fun a b : Nat => a < b) [5, 5] := h
  exact absurd (List.chain'_cons.mp h5).1 (by decide)

/-- C9 amended: getPluginInventory retries with bounded attempts (at most
maxRetries = 1000) at a fixed sleepInterval of 5 seconds between attempts;
when every attempt fails the operation fails visibly with the max-retries
error, and on the first successful attempt it returns the converted plugin
list. -/
theorem getPluginInventory_bounded_fixed_interval_retry
    (attempt : Nat → Except String (List PDPlugin)) :
    (∀ d ∈ (getPluginInventory attempt).2, d = sleepInterval) ∧
    (getPluginInventory attempt).2.length ≤ maxRetries ∧
    ((∀ i, i < maxRetries → ∃ e, attempt i = Except.error e) →
      (getPluginInventory attempt).1 = Except.error "max retries exceeded") ∧
    (∀ k ps, k < maxRetries → attempt k = Except.ok ps →
      (∀ i, i < k → ∃ e, attempt i = Except.error e) →
      (getPluginInventory attempt).1 = Except.ok (ps.map convertPluginFromPD) ∧
      (getPluginInventory attempt).2 = List.replicate k sleepInterval) := by
  refine ⟨(inventoryLoop_sleeps attempt maxRetries 0).1,
    (inventoryLoop_sleeps attempt maxRetries 0).2, ?_, ?_⟩
  · intro hfail
    have h := inventoryLoop_all_fail attempt maxRetries 0
      (fun i _ h2 => hfail i (by omega))
    rw [getPluginInventory, h]
  · intro k ps hk hok hfail
    have h := inventoryLoop_first_success attempt k maxRetries 0 ps hk
      (by simpa using hok) (fun i hi => by simpa using hfail i hi)
    rw [getPluginInventory, h]
    exact ⟨rfl, rfl⟩

/-- Witness: on the demo attempt function the two failures then a success
give the converted one-plugin inventory after exactly two fixed sleeps. -/
theorem getPluginInventory_bounded_fixed_interval_retry_witness :
    (getPluginInventory attemptDemo).1
      = Except.ok [({ id := "comments", version := "1", settings := [] }
          : Plugin)] ∧
    (getPluginInventory attemptDemo).2 = List.replicate 2 sleepInterval := by
  have h := (getPluginInventory_bounded_fixed_interval_retry attemptDemo).2.2.2
    2 [{ id := "comments", version := "1", settings := [] }]
    (by decide)
    rfl
    (fun i hi => ⟨"connection refused", by interval_cases i <;> rfl⟩)
  exact ⟨h.1, h.2⟩

/-! ## politeiaverify bundle verification (src/unnamed/part_004, part_005) -/

/-- External cryptographic primitives used by the verifier, abstracted:
digest is util.Digest (sha256 of a byte slice), b64decode the standard
base64 decoder, convertDigest util.ConvertDigest (hex decode and size
check), merkleTreeRoot the classical merkle.Root over a digest list,
hexEncode the hex encoder, identityFromString and convertSignature the
ed25519 key and signature decoders, and verifyMessage the ed25519
verification of a message under an identity. -/
structure Crypto where
  digest : List Nat → List Nat
  b64decode : String → Option (List Nat)
  convertDigest : String → Option (List Nat)
  merkleTreeRoot : List (List Nat) → List Nat
  hexEncode : List Nat → String
  identityFromString : String → Option Nat
  convertSignature : String → Option Nat
  verifyMessage : Nat → String → Nat → Bool

/-- A file of a record bundle. -/
structure PFile where
  name : String
  digest : String
  payload : String
deriving Repr, DecidableEq

/-- A metadata stream of a record bundle. -/
structure PMetadata where
  hint : String
  digest : String
  payload : String
deriving Repr, DecidableEq

/-- A censorship record of a bundle. -/
structure CensorshipRecord where
  token : String
  merkle : String
  signature : String
deriving Repr, DecidableEq

/-- A proposal bundle after JSON decoding (the decoding itself is outside
the embedding). -/
structure Proposal where
  publicKey : String
  signature : String
  censorshipRecord : CensorshipRecord
  files : List PFile
  metadata : List PMetadata
  serverPublicKey : String
deriving Repr, DecidableEq

/-- The file loop of merkleRoot in part_005: base64-decode each payload,
take its digest, and verify the decoded payload digest equals the digest
field of the file; collect the digests in order. -/
def digestsOfFiles (c : Crypto) : List PFile → Except String (List (List Nat))
  | [] => Except.ok []
  | f :: rest =>
    match c.b64decode f.payload with
    | none => Except.error "corrupt base64 payload"
    | some b =>
      let d := c.digest b
      match c.convertDigest f.digest with
      | none => Except.error ("invalid digest " ++ f.digest)
      | some cd =>
        if d = cd then
          (digestsOfFiles c rest).map (fun ds => d :: ds)
        else
          Except.error ("file: " ++ f.name ++ " digests do not match")

/-- The metadata loop of merkleRoot in part_005, identical to the file loop
except for the structure fields. -/
def digestsOfMetadata (c : Crypto) :
    List PMetadata → Except String (List (List Nat))
  | [] => Except.ok []
  | md :: rest =>
    match c.b64decode md.payload with
    | none => Except.error "corrupt base64 payload"
    | some b =>
      let d := c.digest b
      match c.convertDigest md.digest with
      | none => Except.error ("invalid digest " ++ md.digest)
      | some cd =>
        if d = cd then
          (digestsOfMetadata c rest).map (fun ds => d :: ds)
        else
          Except.error ("metadata: " ++ md.hint ++ " digests do not match")

/-- merkleRoot of part_005: the classical sha256 merkle root over the
verified content digests of all files and then all metadata, hex encoded. -/
def merkleRoot (c : Crypto) (fs : List PFile) (mds : List PMetadata) :
    Except String String := do
  let dfs ← digestsOfFiles c fs
  let dms ← digestsOfMetadata c mds
  Except.ok (c.hexEncode (c.merkleTreeRoot (dfs ++ dms)))

/-- verifyProposal of part_004. The call to wwwutil.MerkleRoot is not among
the sources; the spec states it computes the same classical sha256 merkle
root over the digests of the submitted files and metadata, so it is embedded
by the merkleRoot of part_005. The checks run in source order: recompute the
merkle root, compare it against the censorship record merkle field, verify
the submitter signature over the merkle root, then verify the censorship
record signature over merkle root concatenated with the token under the
server public key. -/
def verifyProposal (c : Crypto) (prop : Proposal) : Except String Unit :=
  match merkleRoot c prop.files prop.metadata with
  | Except.error e => Except.error e
  | Except.ok merkle =>
    if merkle ≠ prop.censorshipRecord.merkle then
      Except.error "Merkle roots do not match"
    else
      match c.identityFromString prop.publicKey with
      | none => Except.error "invalid public key"
      | some pid =>
        match c.convertSignature prop.signature with
        | none => Except.error "invalid signature encoding"
        | some psig =>
          if ¬ c.verifyMessage pid merkle psig then
            Except.error "Invalid proposal signature"
          else
            match c.identityFromString prop.serverPublicKey with
            | none => Except.error "invalid server public key"
            | some sid =>
              match c.convertSignature prop.censorshipRecord.signature with
              | none => Except.error "invalid censorship signature encoding"
              | some ssig =>
                if ¬ c.verifyMessage sid
                    (merkle ++ prop.censorshipRecord.token) ssig then
                  Except.error "Invalid censorship record signature"
                else
                  Except.ok ()

/-- C2: bundle verification accepts only bundles whose recomputed classical
merkle root over the digests of all files and metadata equals the censorship
record merkle field and whose server signature over merkle concatenated with
token verifies under the server public key; by contraposition, when either
check fails the result is not acceptance, hence an error. -/
theorem verifyProposal_ok_requires_merkle_and_server_signature
    (c : Crypto) (prop : Proposal)
    (h : verifyProposal c prop = Except.ok ()) :
    merkleRoot c prop.files prop.metadata
      = Except.ok prop.censorshipRecord.merkle ∧
    ∃ sid ssig, c.identityFromString prop.serverPublicKey = some sid ∧
      c.convertSignature prop.censorshipRecord.signature = some ssig ∧
      c.verifyMessage sid
        (prop.censorshipRecord.merkle ++ prop.censorshipRecord.token) ssig
        = true := by
  unfold verifyProposal at h
  split at h
  next e heqm => simp at h
  next merkle heqm =>
    split at h
    next hne => simp at h
    next hne =>
      split at h
      next => simp at h
      next pid heqpid =>
        split at h
        next => simp at h
        next psig heqpsig =>
          split at h
          next hv => simp at h
          next hv =>
            split at h
            next => simp at h
            next sid heqsid =>
              split at h
              next => simp at h
              next ssig heqssig =>
                split at h
                next hv2 => simp at h
                next hv2 =>
                  have hmm : merkle = prop.censorshipRecord.merkle :=
                    not_ne_iff.mp hne
                  subst hmm
                  exact ⟨heqm, sid, ssig, heqsid, heqssig, not_not.mp hv2⟩

/-- A concrete crypto context in which every primitive is a simple total
function: digests are the identity on decoded bytes, decoding maps characters
to their code points, the tree root concatenates and the hex encoding is a
fixed tag, and signature verification always succeeds. -/
def cryptoDemo : Crypto :=
  { digest := fun b => b
    b64decode := fun s => some (s.data.map Char.toNat)
    convertDigest := fun s => some (s.data.map Char.toNat)
    merkleTreeRoot := fun ds => ds.flatten
    hexEncode := fun _ => "root"
    identityFromString := fun s => some s.length
    convertSignature := fun s => some s.length
    verifyMessage := fun _ _ _ => true }

/-- A concrete proposal bundle that verifies under `cryptoDemo`. -/
def proposalDemo : Proposal :=
  { publicKey := "pk"
    signature := "sig"
    censorshipRecord := { token := "tok", merkle := "root", signature := "ss" }
    files := [{ name := "index.md", digest := "p", payload := "p" }]
    metadata := []
    serverPublicKey := "spk" }

/-- Witness: the demo bundle is accepted, so its recomputed merkle root
matches the censorship record and its server signature verifies. -/
theorem verifyProposal_ok_requires_merkle_and_server_signature_witness :
    merkleRoot cryptoDemo proposalDemo.files proposalDemo.metadata
      = Except.ok proposalDemo.censorshipRecord.merkle ∧
    ∃ sid ssig,
      cryptoDemo.identityFromString proposalDemo.serverPublicKey = some sid ∧
      cryptoDemo.convertSignature proposalDemo.censorshipRecord.signature
        = some ssig ∧
      cryptoDemo.verifyMessage sid
        (proposalDemo.censorshipRecord.merkle
          ++ proposalDemo.censorshipRecord.token) ssig = true :=
  verifyProposal_ok_requires_merkle_and_server_signature cryptoDemo
    proposalDemo rfl

/-! ## Comments plugin commands (modelled from the spec; their tests are in
src/unnamed/part_002 and politeiad/backend/tlogbe/comments_test.go) -/

/-- comments.StateT: the record state a comment command targets. -/
inductive StateT where
  | invalid
  | unvetted
  | vetted
deriving Repr, DecidableEq

/-- comments.VoteT: a comment vote action. -/
inductive VoteT where
  | invalid
  | upvote
  | downvote
deriving Repr, DecidableEq

/-- The comments plugin user-error codes exercised by the tests. -/
inductive CommentsErr where
  | stateInvalid
  | tokenInvalid
  | signatureInvalid
  | publicKeyInvalid
  | commentTextInvalid
  | parentIDInvalid
  | recordNotFound
  | commentNotFound
  | userUnauthorized
  | voteInvalid
  | voteChangesMax
deriving Repr, DecidableEq

/-- A command result error: a PluginUserError carrying a stable code, or an
opaque internal error. -/
inductive CmdErr where
  | user (code : CommentsErr)
  | internal (msg : String)
deriving Repr, DecidableEq

/-- The canonical message a client signs, per the spec: the command state,
the record token, and the content-specific fields of the command. -/
inductive Msg where
  | newMsg (state : StateT) (token : String) (comment : String) (parentID : Nat)
  | voteMsg (state : StateT) (token : String) (commentID : Nat) (vote : VoteT)
deriving Repr, DecidableEq

/-- A wire signature: either malformed (its conversion fails) or a signature
by a key over a canonical message. -/
inductive Sig where
  | malformed (s : String)
  | signed (key : Nat) (msg : Msg)
deriving Repr, DecidableEq

/-- A wire public key: either malformed or a key. -/
inductive PubKey where
  | malformed (s : String)
  | key (k : Nat)
deriving Repr, DecidableEq

/-- Modelled from the spec: the signature validation used by the comments
plugin handlers (util.VerifySignature; not among the sources). Converting a
malformed signature fails with SignatureInvalid; parsing a malformed public
key fails with PublicKeyInvalid; otherwise the signature must be by the
submitted key over the canonical message, else SignatureInvalid. Returns
none on success. -/
def verifySignature (sig : Sig) (pk : PubKey) (msg : Msg) :
    Option CommentsErr :=
  match sig with
  | Sig.malformed _ => some CommentsErr.signatureInvalid
  | Sig.signed k m =>
    match pk with
    | PubKey.malformed _ => some CommentsErr.publicKeyInvalid
    | PubKey.key k2 =>
      if k = k2 ∧ m = msg then none else some CommentsErr.signatureInvalid

/-- A stored comment: the fields the handlers consult. -/
structure Comment where
  userID : String
  commentID : Nat
deriving Repr, DecidableEq

/-- A recorded comment vote object. -/
structure VoteRec where
  userID : String
  token : String
  commentID : Nat
  vote : VoteT
deriving Repr, DecidableEq

/-- Modelled from the spec: the state the comments plugin handlers read and
write — the policy bounds, the token and record lookups served by the
backend, the comments of each record, and the accumulated vote objects. -/
structure CommentsCtx where
  policyCommentLengthMax : Nat
  policyVoteChangesMax : Nat
  tokenValid : String → Bool
  recordExists : String → Bool
  comments : String → List Comment
  votes : List VoteRec

/-- The comments.New payload. -/
structure NewPayload where
  userID : String
  state : StateT
  token : String
  parentID : Nat
  comment : String
  publicKey : PubKey
  signature : Sig
deriving Repr, DecidableEq

/-- The comments.Vote payload. -/
structure VotePayload where
  userID : String
  state : StateT
  token : String
  commentID : Nat
  vote : VoteT
  publicKey : PubKey
  signature : Sig
deriving Repr, DecidableEq

/-- The number of vote objects a user has accumulated on a comment of a
record. -/
def countVotes (votes : List VoteRec) (u tok : String) (cid : Nat) : Nat :=
  (votes.filter
    (fun v => v.userID == u && v.token == tok && v.commentID == cid)).length

/-- Modelled from the spec: the comments plugin cmdNew handler (not among
the sources; part_002 holds only its tests). In the order the tests pin
down: the state must be unvetted or vetted; the token must be valid; the
signature must verify over the canonical (state, token, comment, parentID)
message under the submitted public key; the comment must not exceed the
policy maximum length; the record must exist; the parent id must be 0 or
name an existing comment of the record. On success the comment is stored
under the next comment id of the record. -/
def cmdNew (ctx : CommentsCtx) (p : NewPayload) :
    Except CmdErr (CommentsCtx × Comment) :=
  if p.state ≠ StateT.unvetted ∧ p.state ≠ StateT.vetted then
    Except.error (CmdErr.user CommentsErr.stateInvalid)
  else if ctx.tokenValid p.token = false then
    Except.error (CmdErr.user CommentsErr.tokenInvalid)
  else
    match verifySignature p.signature p.publicKey
        (Msg.newMsg p.state p.token p.comment p.parentID) with
    | some code => Except.error (CmdErr.user code)
    | none =>
      if ctx.policyCommentLengthMax < p.comment.length then
        Except.error (CmdErr.user CommentsErr.commentTextInvalid)
      else if ctx.recordExists p.token = false then
        Except.error (CmdErr.user CommentsErr.recordNotFound)
      else if p.parentID ≠ 0 ∧
          (∀ cm ∈ ctx.comments p.token, cm.commentID ≠ p.parentID) then
        Except.error (CmdErr.user CommentsErr.parentIDInvalid)
      else
        let cm : Comment :=
          { userID := p.userID
            commentID := (ctx.comments p.token).length + 1 }
        Except.ok
          ({ ctx with comments := fun t =>
              if t = p.token then ctx.comments t ++ [cm]
              else ctx.comments t },
            cm)

/-- Modelled from the spec: the comments plugin cmdVote handler (not among
the sources; part_002 holds only its tests). In the order the tests pin
down: the state must be unvetted or vetted; the token must be valid; the
signature must verify over the canonical (state, token, commentID, vote)
message under the submitted public key; the record must exist; the vote
action must be an upvote or a downvote; the comment must exist; a user
cannot vote on an own comment; and the accumulated vote objects of the user
on that comment must not exceed the policy bound on vote changes. On
success the vote object is accumulated. -/
def cmdVote (ctx : CommentsCtx) (p : VotePayload) : Except CmdErr CommentsCtx :=
  if p.state ≠ StateT.unvetted ∧ p.state ≠ StateT.vetted then
    Except.error (CmdErr.user CommentsErr.stateInvalid)
  else if ctx.tokenValid p.token = false then
    Except.error (CmdErr.user CommentsErr.tokenInvalid)
  else
    match verifySignature p.signature p.publicKey
        (Msg.voteMsg p.state p.token p.commentID p.vote) with
    | some code => Except.error (CmdErr.user code)
    | none =>
      if ctx.recordExists p.token = false then
        Except.error (CmdErr.user CommentsErr.recordNotFound)
      else if p.vote ≠ VoteT.upvote ∧ p.vote ≠ VoteT.downvote then
        Except.error (CmdErr.user CommentsErr.voteInvalid)
      else
        match (ctx.comments p.token).find?
            (fun cm => cm.commentID == p.commentID) with
        | none => Except.error (CmdErr.user CommentsErr.commentNotFound)
        | some cm =>
          if cm.userID = p.userID then
            Except.error (CmdErr.user CommentsErr.voteInvalid)
          else if ctx.policyVoteChangesMax <
              countVotes ctx.votes p.userID p.token p.commentID then
            Except.error (CmdErr.user CommentsErr.voteChangesMax)
          else
            Except.ok { ctx with votes :=
              { userID := p.userID, token := p.token,
                commentID := p.commentID, vote := p.vote } :: ctx.votes }

/-- C7: a comments command whose signature was computed over the wrong
(state, token, content-fields) combination — here a signature over the
vetted state submitted with an unvetted-state payload — is rejected with
the SignatureInvalid code, while the identical payload carrying the correct
signature over the canonical fields succeeds (the remaining validations
passing). -/
theorem cmdNew_wrong_state_signature_rejected
    (ctx : CommentsCtx) (p : NewPayload) (k : Nat)
    (hstate : p.state = StateT.unvetted)
    (hpk : p.publicKey = PubKey.key k)
    (htoken : ctx.tokenValid p.token = true)
    (hlen : p.comment.length ≤ ctx.policyCommentLengthMax)
    (hrec : ctx.recordExists p.token = true)
    (hparent : p.parentID = 0) :
    cmdNew ctx { p with signature := Sig.signed k (Msg.newMsg StateT.vetted p.token p.comment p.parentID) }
      = Except.error (CmdErr.user CommentsErr.signatureInvalid) ∧
    ∃ res, cmdNew ctx { p with signature := Sig.signed k (Msg.newMsg p.state p.token p.comment p.parentID) }
      = Except.ok res := by
  have hlt : ¬ ctx.policyCommentLengthMax < p.comment.length :=
    Nat.not_lt.mpr hlen
  constructor
  · simp [cmdNew, verifySignature, hstate, hpk, htoken]
  · refine ⟨({ ctx with comments := fun t => if t = p.token then ctx.comments t ++ [{ userID := p.userID, commentID := (ctx.comments p.token).length + 1 }] else ctx.comments t }, { userID := p.userID, commentID := (ctx.comments p.token).length + 1 }), ?_⟩
    simp [cmdNew, verifySignature, hstate, hpk, htoken, hlt, hrec, hparent]

/-- A concrete comments plugin context: one record with token tok holding
one comment by its author, no votes yet. -/
def ctxDemo : CommentsCtx :=
  { policyCommentLengthMax := 8000
    policyVoteChangesMax := 5
    tokenValid := fun t => t == "tok"
    recordExists := fun t => t == "tok"
    comments := fun t =>
      if t = "tok" then [{ userID := "author", commentID := 1 }] else []
    votes := [] }

/-- A concrete comments.New payload for the demo context (the signature
field is set by the theorem being witnessed). -/
def newPayloadDemo : NewPayload :=
  { userID := "submitter"
    state := StateT.unvetted
    token := "tok"
    parentID := 0
    comment := "hello"
    publicKey := PubKey.key 9
    signature := Sig.malformed "unset" }

/-- Witness: in the demo context the wrongly-signed payload is rejected
with SignatureInvalid and the correctly-signed payload succeeds. -/
theorem cmdNew_wrong_state_signature_rejected_witness :
    cmdNew ctxDemo { newPayloadDemo with signature := Sig.signed 9 (Msg.newMsg StateT.vetted newPayloadDemo.token newPayloadDemo.comment newPayloadDemo.parentID) }
      = Except.error (CmdErr.user CommentsErr.signatureInvalid) ∧
    ∃ res, cmdNew ctxDemo { newPayloadDemo with signature := Sig.signed 9 (Msg.newMsg newPayloadDemo.state newPayloadDemo.token newPayloadDemo.comment newPayloadDemo.parentID) }
      = Except.ok res :=
  cmdNew_wrong_state_signature_rejected ctxDemo newPayloadDemo 9
    rfl rfl rfl (by decide) rfl rfl

/-- C8: with every other validation passing, a vote cast while the user has
accumulated at most policyVoteChangesMax vote objects on the comment
succeeds and grows the accumulated count by one, and a vote cast once the
count exceeds the bound — in a run of successive casts, the one that would
exceed policyVoteChangesMax changes — fails with the VoteChangesMax user
error rather than being silently ignored. -/
theorem cmdVote_vote_changes_max
    (ctx : CommentsCtx) (p : VotePayload) (k : Nat) (cm : Comment)
    (hstate : p.state = StateT.unvetted)
    (hsig : p.signature = Sig.signed k
      (Msg.voteMsg p.state p.token p.commentID p.vote))
    (hpk : p.publicKey = PubKey.key k)
    (htoken : ctx.tokenValid p.token = true)
    (hrec : ctx.recordExists p.token = true)
    (hvote : p.vote = VoteT.upvote ∨ p.vote = VoteT.downvote)
    (hfind : (ctx.comments p.token).find?
      (fun c2 => c2.commentID == p.commentID) = some cm)
    (hown : cm.userID ≠ p.userID) :
    (countVotes ctx.votes p.userID p.token p.commentID
        ≤ ctx.policyVoteChangesMax →
      cmdVote ctx p = Except.ok { ctx with votes := { userID := p.userID, token := p.token, commentID := p.commentID, vote := p.vote } :: ctx.votes } ∧
      countVotes ({ userID := p.userID, token := p.token, commentID := p.commentID, vote := p.vote } :: ctx.votes)
          p.userID p.token p.commentID
        = countVotes ctx.votes p.userID p.token p.commentID + 1) ∧
    (ctx.policyVoteChangesMax
        < countVotes ctx.votes p.userID p.token p.commentID →
      cmdVote ctx p = Except.error (CmdErr.user CommentsErr.voteChangesMax)) := by
  have hvote2 : ¬ (p.vote ≠ VoteT.upvote ∧ p.vote ≠ VoteT.downvote) := by
    rcases hvote with h | h <;> simp [h]
  constructor
  · intro hle
    have hnlt : ¬ ctx.policyVoteChangesMax <
        countVotes ctx.votes p.userID p.token p.commentID :=
      Nat.not_lt.mpr hle
    constructor
    · simp [cmdVote, verifySignature, hstate, hsig, hpk, htoken, hrec,
        hvote2, hfind, hown, hnlt]
    · simp [countVotes, List.filter_cons]
  · intro hgt
    simp [cmdVote, verifySignature, hstate, hsig, hpk, htoken, hrec,
      hvote2, hfind, hown, hgt]

/-- A concrete comments.Vote payload for the demo context, correctly signed
over the canonical fields. -/
def votePayloadDemo : VotePayload :=
  { userID := "voter"
    state := StateT.unvetted
    token := "tok"
    commentID := 1
    vote := VoteT.upvote
    publicKey := PubKey.key 9
    signature := Sig.signed 9
      (Msg.voteMsg StateT.unvetted "tok" 1 VoteT.upvote) }

/-- Witness: in the demo context (no accumulated votes, bound 5) the vote
succeeds and the accumulated count becomes one. -/
theorem cmdVote_vote_changes_max_witness :
    cmdVote ctxDemo votePayloadDemo = Except.ok { ctxDemo with votes := [{ userID := "voter", token := "tok", commentID := 1, vote := VoteT.upvote }] } ∧
    countVotes [{ userID := "voter", token := "tok", commentID := 1, vote := VoteT.upvote }] "voter" "tok" 1
      = countVotes ([] : List VoteRec) "voter" "tok" 1 + 1 :=
  (cmdVote_vote_changes_max ctxDemo votePayloadDemo 9
      { userID := "author", commentID := 1 }
      rfl rfl rfl rfl rfl (Or.inl rfl) rfl (by decide)).1
    (by decide)

end Politeia
